import Mathlib

/-!
Verification of the meowdict core: the moedict response-normalization engine
(`src/api.rs`) and the console command/mode state machine (`src/console.rs`),
shallowly embedded in Lean.  JSON values are modelled by an inductive `Value`
type; `serde_json` accessors (`as_str`, `as_array`, `as_object`, map `get`)
become `Option`-returning functions; `anyhow` errors become `Except RunErr`
with `RunErr.err`, and a Rust panic (out-of-bounds `Vec` indexing, a failing
`unwrap`) becomes `RunErr.panic`, which — unlike `RunErr.err` — is *not*
caught by the `match ... { Ok => Some, Err => None }` recovery in
`format_result` and instead propagates (modelled by `Option`, `none` =
aborted by panic).
-/

set_option autoImplicit false

deriving instance DecidableEq for Except

namespace Meowdict

/-- A JSON value, mirroring `serde_json::Value`.  Objects keep their fields in
order (serde maps have unique keys; lookup takes the first match). -/
inductive Value where
  | null
  | bool (b : Bool)
  | num (n : Int)
  | str (s : String)
  | arr (elems : List Value)
  | obj (fields : List (String × Value))

/-- `Value::as_str`. -/
def Value.as_str : Value → Option String
  | .str s => some s
  | _ => none

/-- `Value::as_array`. -/
def Value.as_array : Value → Option (List Value)
  | .arr xs => some xs
  | _ => none

/-- `Value::as_object`. -/
def Value.as_object : Value → Option (List (String × Value))
  | .obj fs => some fs
  | _ => none

/-- `Map::get` on a JSON object / `HashMap<String, Value>`: value of the first
field with the given key. -/
def objGet (fields : List (String × Value)) (k : String) : Option Value :=
  (fields.find? (fun p => p.1 == k)).map (fun p => p.2)

/-- The `IndexMap<String, Vec<Vec<String>>>` built by `get_defination`,
as an insertion-ordered association list. -/
abbrev DefMap := List (String × List (List String))

/-- `IndexMap::get`: value of the first (only) entry with the given key. -/
def imGet {α : Type} (m : List (String × α)) (k : String) : Option α :=
  (m.find? (fun p => p.1 == k)).map (fun p => p.2)

/-- `IndexMap::insert`: replace the value in place if the key is present,
otherwise append the new entry at the end. -/
def imInsert {α : Type} : List (String × α) → String → α → List (String × α)
  | [], k, v => [(k, v)]
  | (k', v') :: rest, k, v =>
    if k' == k then (k', v) :: rest else (k', v') :: imInsert rest k v

/-- `IndexMap::get_mut` followed by an update: apply `f` to the value of the
first entry with the given key (no-op when absent; callers only use it on
present keys). -/
def imModify {α : Type} : List (String × α) → String → (α → α) → List (String × α)
  | [], _, _ => []
  | (k', v) :: rest, k, f =>
    if k' == k then (k', f v) :: rest else (k', v) :: imModify rest k f

/-- `groups[i].push(s)` once the bound `i < groups.length` has been checked:
append `s` to the `i`-th group. -/
def vecPushAt : List (List String) → Nat → String → List (List String)
  | [], _, _ => []
  | g :: rest, 0, s => (g ++ [s]) :: rest
  | g :: rest, Nat.succ i, s => g :: vecPushAt rest i s

/-- Runtime outcome of an `api.rs` extraction step: `err` is a recoverable
`anyhow::Error` (caught by `format_result`), `panic` is an abort
(out-of-bounds index / failing `unwrap`) that `format_result` cannot catch. -/
inductive RunErr where
  | err
  | panic
deriving DecidableEq, Repr

/-- Lift a `serde` accessor result: `x.ok_or_else(|| anyhow!(...))?`. -/
def exOpt {α : Type} (e : RunErr) : Option α → Except RunErr α
  | some a => .ok a
  | none => .error e

/-- The inner loop of `for j in item_list { if let Some(j) = j.as_str() {
defination_item.get_mut(t).unwrap()[count].push(j.to_string()); } }`:
non-string elements are skipped; each string element is pushed through
`get_mut(t).unwrap()[count]`, which panics when `t` is absent or `count` is
out of bounds. -/
def pushStrs (m : DefMap) (t : String) (count : Nat) : List Value → Except RunErr DefMap
  | [] => .ok m
  | j :: rest =>
    match j.as_str with
    | none => pushStrs m t count rest
    | some s =>
      match imGet m t with
      | none => .error RunErr.panic
      | some gs =>
        if count < gs.length then
          pushStrs (imModify m t (fun _ => vecPushAt gs count s)) t count rest
        else .error RunErr.panic

/-- The `for i in &["q", "e", "l"]` loop of `get_defination`: for each key
that is present, `as_array` must succeed (else `anyhow` error), and then its
string elements are pushed into group `count` of tag `t`. -/
def procQEL (fields : List (String × Value)) (t : String) (count : Nat) :
    DefMap → List String → Except RunErr DefMap
  | m, [] => .ok m
  | m, k :: ks => do
    let m' ← match objGet fields k with
      | none => Except.ok m
      | some v => do
        let xs ← exOpt RunErr.err v.as_array
        pushStrs m t count xs
    procQEL fields t count m' ks

/-- One iteration of `for dict_item in dicts_item` in `get_defination`
(src/api.rs:126-162): resolve the tag `t` from key `type` (missing key gives
`"notype"`; a present non-string value is an error), append a fresh group
(resetting `count` to 0 exactly when the tag is new), push the string at `f`
(bounds-checked index first — the place expression `...[count]` is evaluated
before `as_str` on the argument — so an out-of-range `count` panics), then
process `q`, `e`, `l`, and finally increment `count`. -/
def procDefItem (m : DefMap) (count : Nat) (item : Value) :
    Except RunErr (DefMap × Nat) := do
  let fields ← exOpt RunErr.err item.as_object
  let t ← match objGet fields "type" with
    | some v => exOpt RunErr.err v.as_str
    | none => Except.ok "notype"
  let (m, count) :=
    match imGet m t with
    | none => (imInsert m t [[]], 0)
    | some _ => (imModify m t (fun gs => gs ++ [[]]), count)
  let m ← match objGet fields "f" with
    | none => Except.ok m
    | some v =>
      match imGet m t with
      | none => Except.error RunErr.panic
      | some gs =>
        if count < gs.length then
          match v.as_str with
          | some s => Except.ok (imModify m t (fun _ => vecPushAt gs count s))
          | none => Except.error RunErr.err
        else Except.error RunErr.panic
  let m ← procQEL fields t count m ["q", "e", "l"]
  Except.ok (m, count + 1)

/-- The loop of `get_defination` over all items of the `d` array, threading
the definition map and the (buggy, shared across tags) `count` index. -/
def defLoop (m : DefMap) (count : Nat) : List Value → Except RunErr DefMap
  | [] => .ok m
  | item :: rest => do
    let (m', c') ← procDefItem m count item
    defLoop m' c' rest

/-- `get_defination` (src/api.rs:116-165): the sense object must be an object
with key `d` holding an array; its items are folded into an insertion-ordered
map from part-of-speech tag to definition groups. -/
def get_defination (dict_val : Value) : Except RunErr DefMap := do
  let fields ← exOpt RunErr.err dict_val.as_object
  let dv ← exOpt RunErr.err (objGet fields "d")
  let dicts_item ← exOpt RunErr.err dv.as_array
  defLoop [] 0 dicts_item

/-- `get_pinyin` (src/api.rs:103-114): the string at key `p` of the sense
object; any mismatch (not an object, missing key, non-string) is an
`anyhow` error. -/
def get_pinyin (dict_val : Value) : Except RunErr String := do
  let fields ← exOpt RunErr.err dict_val.as_object
  let p ← exOpt RunErr.err (objGet fields "p")
  exOpt RunErr.err p.as_str

/-- `get_bopomofo` (src/api.rs:167-178): same as `get_pinyin` for key `b`. -/
def get_bopomofo (dict_val : Value) : Except RunErr String := do
  let fields ← exOpt RunErr.err dict_val.as_object
  let b ← exOpt RunErr.err (objGet fields "b")
  exOpt RunErr.err b.as_str

/-- `get_h` (src/api.rs:67-76): the array at top-level key `h`. -/
def get_h (json : List (String × Value)) : Except RunErr (List Value) := do
  let hv ← exOpt RunErr.err (objGet json "h")
  exOpt RunErr.err hv.as_array

/-- The element loop of `get_translations`: every element of a language's
array must be a string, else an `anyhow` error. -/
def strsOfValues : List Value → Except RunErr (List String)
  | [] => .ok []
  | v :: rest => do
    let s ← exOpt RunErr.err v.as_str
    let ss ← strsOfValues rest
    Except.ok (s :: ss)

/-- The `for (lang, lang_value) in translation` loop of `get_translations`. -/
def transLoop (acc : List (String × List String)) :
    List (String × Value) → Except RunErr (List (String × List String))
  | [] => .ok acc
  | (lang, lv) :: rest => do
    let xs ← exOpt RunErr.err lv.as_array
    let strs ← strsOfValues xs
    transLoop (imInsert acc lang strs) rest

/-- `get_translations` (src/api.rs:78-101): the object at top-level key
`translation`, each value an array of strings, collected into an
insertion-ordered map. -/
def get_translations (json : List (String × Value)) :
    Except RunErr (List (String × List String)) := do
  let tv ← exOpt RunErr.err (objGet json "translation")
  let tobj ← exOpt RunErr.err tv.as_object
  transLoop [] tobj

/-- `MoedictItemResult` (src/api.rs:6-10). -/
structure MoedictItemResult where
  pinyin : Option String
  bopomofo : Option String
  defination : Option DefMap
deriving DecidableEq, Repr

/-- `MoedictResult` (src/api.rs:12-15). -/
structure MoedictResult where
  moedict_item_result : List MoedictItemResult
  translation : Option (List (String × List String))
deriving DecidableEq, Repr

/-- `match step { Ok(v) => Some(v), Err(_) => None }` as written in
`format_result`: a recoverable error becomes `none`, but a panic is not a
`Result` value and keeps propagating (outer `none`). -/
def catchErr {α : Type} : Except RunErr α → Option (Option α)
  | .ok a => some (some a)
  | .error .err => some none
  | .error .panic => none

/-- Plain `Result → Option` view (for stating which fields populated). -/
def toOpt {α : Type} : Except RunErr α → Option α
  | .ok a => some a
  | .error _ => none

/-- The body of `format_result`'s per-sense loop (src/api.rs:28-46):
`defination`, `pinyin`, `bopomofo` are extracted independently, each
recovered to `None` on error; a panic aborts everything. -/
def itemOf (dict_val : Value) : Option MoedictItemResult := do
  let defination ← catchErr (get_defination dict_val)
  let pinyin ← catchErr (get_pinyin dict_val)
  let bopomofo ← catchErr (get_bopomofo dict_val)
  some ⟨pinyin, bopomofo, defination⟩

/-- The `for dict_val in dict` loop of `format_result`, collecting one
`MoedictItemResult` per sense (propagating panics). -/
def itemsLoop : List Value → Option (List MoedictItemResult)
  | [] => some []
  | v :: rest => do
    let item ← itemOf v
    let items ← itemsLoop rest
    some (item :: items)

/-- `format_result` (src/api.rs:17-54): recover `get_h` and
`get_translations` failures to `None`; when `h` was extracted, build one
item per sense.  `none` means the Rust code panicked. -/
def format_result (json : List (String × Value)) : Option MoedictResult := do
  let dict ← catchErr (get_h json)
  let translation ← catchErr (get_translations json)
  let items ← match dict with
    | none => some []
    | some dict => itemsLoop dict
  some ⟨items, translation⟩

/-! ### The fetch pipeline (`request_moedict`, `get_result`)

The raw response text is modelled as a `List Char`; `.replace("~", "")` /
`.replace("\x60", "")` on single-character patterns are exactly character
filters, and `String::contains` of the 404 marker is list-infix. The JSON
parser (`serde_json::from_str`) and the network transport are external
collaborators, so `get_result` is parameterised over the parse function and
over the already-fetched response text. -/

/-- The literal `<title>404 Not Found</title>` marker. -/
def marker404 : List Char := "<title>404 Not Found</title>".data

/-- `response.replace("~", "").replace("\x60", "")` (src/api.rs:59). -/
def stripMarks (response : List Char) : List Char :=
  (response.filter (fun c => c != '~')).filter (fun c => c != '`')

/-- `request_moedict` (src/api.rs:56-65), after the external fetch produced
`response`: strip `~` and backtick, then fail with the keyword when the
404 marker occurs in the stripped text. -/
def request_moedict (keyword : String) (response : List Char) :
    Except String (List Char) :=
  let result := stripMarks response
  if marker404 <:+: result then Except.error keyword else Except.ok result

/-- Observable outcome of `get_result`. -/
inductive GetResultOutcome where
  | notFound (keyword : String)
  | parseError
  | panic
  | ok (r : MoedictResult)
deriving DecidableEq, Repr

/-- `get_result` (src/api.rs:180-186): fetch (already done, `response`),
detect 404, parse (external `parse` function), then `format_result`. -/
def get_result (parse : List Char → Option (List (String × Value)))
    (keyword : String) (response : List Char) : GetResultOutcome :=
  match request_moedict keyword response with
  | .error k => .notFound k
  | .ok text =>
    match parse text with
    | none => .parseError
    | some json =>
      match format_result json with
      | none => .panic
      | some r => .ok r

/-! ### The console command/mode state machine (`src/console.rs`)

Only the persistent flags of `MeowdictConsole` are state (the HTTP client,
runtime and colour flag play no role in the claims); the `opencc_convert`
script conversion is an external pure function, passed in as `conv`.  The
three `search_word_to_*` query paths are external too: the model's
`Dispatch` records which one was chosen and with what arguments. -/

/-- `OpenccConvertMode` (from `formatter.rs`, as used by `console.rs`). -/
inductive OpenccConvertMode where
  | S2T
  | T2S

/-- The persistent session flags of `MeowdictConsole` (src/console.rs:9-15). -/
structure SessionState where
  input_s2t : Bool
  result_t2s : Bool
deriving DecidableEq, Repr

/-- `set_console_mode` (src/console.rs:35-52). -/
def set_console_mode (s : SessionState) (t : OpenccConvertMode) (enable : Bool) :
    SessionState :=
  match t with
  | .S2T => { s with input_s2t := enable }
  | .T2S => { s with result_t2s := enable }

/-- The four transient per-command booleans of `args_runner`。-/
structure CmdFlags where
  command_input_s2t : Bool
  command_result_t2s : Bool
  translation_mode : Bool
  jyutping_mode : Bool
deriving DecidableEq, Repr

/-- All four transient flags start out `false` (src/console.rs:56-59). -/
def initFlags : CmdFlags := ⟨false, false, false, false⟩

/-- One arm of the `match i` over a flag token (src/console.rs:61-79):
`none` is the `_ => return Err(anyhow!("Invaild argument: {}", i))` arm. -/
def proc_arg (s : SessionState) (c : CmdFlags) (i : String) :
    Option (SessionState × CmdFlags) :=
  if i = "--input-s2t" then some (s, { c with command_input_s2t := true })
  else if i = "-i" then some (s, { c with command_input_s2t := true })
  else if i = "--result-t2s" then some (s, { c with command_result_t2s := true })
  else if i = "-r" then some (s, { c with command_result_t2s := true })
  else if i = "--translation" then some (s, { c with translation_mode := true })
  else if i = "-t" then some (s, { c with translation_mode := true })
  else if i = "--jyutping" then some (s, { c with jyutping_mode := true })
  else if i = "-j" then some (s, { c with jyutping_mode := true })
  else if i = "--set-mode-input-s2t" then
    some (set_console_mode s OpenccConvertMode.S2T true, c)
  else if i = "--set-mode-result-t2s" then
    some (set_console_mode s OpenccConvertMode.T2S true, c)
  else if i = "--unset-mode-input-s2t" then
    some (set_console_mode s OpenccConvertMode.S2T false, c)
  else if i = "--unset-mode-result-t2s" then
    some (set_console_mode s OpenccConvertMode.T2S false, c)
  else if i = "--unset-mode-all" then
    some (set_console_mode (set_console_mode s OpenccConvertMode.S2T false)
            OpenccConvertMode.T2S false, c)
  else none

/-- The `for i in args` loop (src/console.rs:60-80): session mutations made
by earlier flags persist even when a later token makes the loop return the
invalid-argument error (carrying the offending token). -/
def args_loop (s : SessionState) (c : CmdFlags) :
    List String → SessionState × Except String CmdFlags
  | [] => (s, .ok c)
  | i :: rest =>
    match proc_arg s c i with
    | some (s', c') => args_loop s' c' rest
    | none => (s, .error i)

/-- Which query path `args_runner` dispatches to (src/console.rs:87-115). -/
inductive QueryMode where
  | translation
  | jyutping
  | dict
deriving DecidableEq, Repr

/-- The arguments handed to the chosen `search_word_to_*` call: the (possibly
converted) words and the effective `result_t2s` flag. -/
structure Dispatch where
  mode : QueryMode
  words : List String
  result_t2s : Bool
deriving DecidableEq, Repr

/-- `args_runner` (src/console.rs:54-118): run the flag loop, convert the
words when `self.input_s2t || command_input_s2t`, and dispatch with priority
translation > jyutping > dict.  An invalid flag returns the error without
dispatching, keeping any session mutations already made. -/
def args_runner (conv : String → String) (s : SessionState)
    (args words : List String) : SessionState × Except String Dispatch :=
  match args_loop s initFlags args with
  | (s', .error i) => (s', .error i)
  | (s', .ok c) =>
    let words' := if s'.input_s2t || c.command_input_s2t then words.map conv else words
    let mode := if c.translation_mode then QueryMode.translation
      else if c.jyutping_mode then QueryMode.jyutping
      else QueryMode.dict
    (s', .ok ⟨mode, words', c.command_result_t2s || s'.result_t2s⟩)

/-- Rust's `x.starts_with('-')`: the token begins with a dash character. -/
def startsWithDash (x : String) : Bool :=
  match x.data with
  | [] => false
  | c :: _ => c == '-'

/-- `argument_spliter` (src/console.rs:121-133): tokens starting with `-`
are flags, the rest are search words, each keeping its relative order. -/
def argument_spliter (argument : List String) : List String × List String :=
  (argument.filter (fun x => startsWithDash x),
   argument.filter (fun x => !startsWithDash x))

/-- One console command (src/console.rs:26-31): split the tokens and run
`args_runner` against the current session state. -/
def run_command (conv : String → String) (s : SessionState)
    (tokens : List String) : SessionState × Except String Dispatch :=
  let (args, words) := argument_spliter tokens
  args_runner conv s args words

/-! ### Concrete inputs used by the claim theorems -/

/-- A sense object whose `d` array interleaves tags `v, v, n, v`, the last
item carrying `f: "x"`.  When its fourth item is processed, `count` is `1`
(reset when `n` was first seen, then incremented once) while the group just
appended for `v` has index `2`. -/
def senseInterleaved : Value :=
  Value.obj [("d", Value.arr [
    Value.obj [("type", Value.str "v")],
    Value.obj [("type", Value.str "v")],
    Value.obj [("type", Value.str "n")],
    Value.obj [("type", Value.str "v"), ("f", Value.str "x")]])]

/-- A sense object whose `d` array interleaves tags `v, n, n, v`, the last
item carrying `f: "x"`.  When its fourth item is processed, `count` is `2`
while tag `v` only has groups `0` and `1`: the index is out of bounds. -/
def senseOutOfBounds : Value :=
  Value.obj [("d", Value.arr [
    Value.obj [("type", Value.str "v")],
    Value.obj [("type", Value.str "n")],
    Value.obj [("type", Value.str "n")],
    Value.obj [("type", Value.str "v"), ("f", Value.str "y")]])]

/-- Same shape as `senseOutOfBounds` with different tags/text, used for the
entry-count claim: tags `a, b, b, a`, last item `f: "z"`. -/
def senseOutOfBoundsB : Value :=
  Value.obj [("d", Value.arr [
    Value.obj [("type", Value.str "a")],
    Value.obj [("type", Value.str "b")],
    Value.obj [("type", Value.str "b")],
    Value.obj [("type", Value.str "a"), ("f", Value.str "z")]])]

/-- A sense object whose single `d` item has a *non-string* `type`. -/
def senseNumType : Value :=
  Value.obj [("d", Value.arr [
    Value.obj [("type", Value.num 1), ("f", Value.str "x")]])]

/-! ### Claim theorems -/

/-- Claim C1 (code bug, evaluation at the failing input): for the `d` array
`[{type:"v"}, {type:"v"}, {type:"n"}, {type:"v", f:"x"}]`, the claim (and
spec) say the string `"x"` of the fourth item is pushed into the group just
appended for tag `v` — group index 2 — but the code pushes it into group
index `count = 1`, the group of the *second* item, because `count` is reset
only when a tag is first seen.  The just-appended group stays empty and a
foreign group receives the text. -/
theorem c1_interleaved_tags_use_stale_group_index :
    get_defination senseInterleaved =
      Except.ok [("v", [[], ["x"], []]), ("n", [[]])] := by
  rfl

/-- Claim C2 (code bug, evaluation at the failing input): for the `d` array
`[{type:"v"}, {type:"n"}, {type:"n"}, {type:"v", f:"y"}]`, processing the
fourth item indexes tag `v`'s two groups at `count = 2`: the code panics with
an out-of-bounds index instead of returning a `MoedictResult`, so
`format_result` is not total and the group-index access does go out of
bounds. -/
theorem c2_group_index_out_of_bounds_panics :
    get_defination senseOutOfBounds = Except.error RunErr.panic ∧
    format_result [("h", Value.arr [senseOutOfBounds])] = none := by
  exact ⟨rfl, rfl⟩

/-- Claim C3 (counterexample): for the `d` array `[{type:1, f:"x"}]` — key
`type` holds a number — the claim says the tag falls back to `"notype"` and
`definitions["notype"] = [["x"]]` is still built; the code instead fails
`get_defination` with an `anyhow` error (`v.as_str().ok_or(...)?`), so the
entry's definitions are absent and no `"notype"` group exists. -/
theorem c3_nonstring_type_is_error_not_notype :
    get_defination senseNumType = Except.error RunErr.err ∧
    format_result [("h", Value.arr [senseNumType])] =
      some ⟨[⟨none, none, none⟩], none⟩ := by
  exact ⟨rfl, rfl⟩

/-- Claim C4: for the `d` array `[{type:"v", f:"run"}, {type:"v",
q:["fast"]}]`, `definitions["v"]` is the two groups `[["run"], ["fast"]]`
in that order. -/
theorem c4_two_groups_order_preserved :
    get_defination (Value.obj [("d", Value.arr [
      Value.obj [("type", Value.str "v"), ("f", Value.str "run")],
      Value.obj [("type", Value.str "v"), ("q", Value.arr [Value.str "fast"])]])]) =
    Except.ok [("v", [["run"], ["fast"]])] := by
  rfl

/-- Claim C9 (code bug, evaluation at the failing input): an `h` array with
one element whose `d` array is `[{type:"a"}, {type:"b"}, {type:"b"},
{type:"a", f:"z"}]` makes normalization panic — it produces no entries at
all rather than exactly one — refuting "exactly n entries regardless of each
element's shape".  The second conjunct records the true part of the claim:
a non-object element still yields an entry with pinyin, bopomofo and
definitions all absent. -/
theorem c9_entry_per_element_fails_on_panic :
    format_result [("h", Value.arr [senseOutOfBoundsB])] = none ∧
    format_result [("h", Value.arr [Value.str "w"])] =
      some ⟨[⟨none, none, none⟩], none⟩ := by
  exact ⟨rfl, rfl⟩

/-- Running the flag loop on a concatenation: process the first list; stop
with its error, or continue from its final state. -/
theorem args_loop_append (l1 l2 : List String) (s : SessionState) (c : CmdFlags) :
    args_loop s c (l1 ++ l2) =
      match args_loop s c l1 with
      | (s', Except.ok c') => args_loop s' c' l2
      | (s', Except.error e) => (s', Except.error e) := by
  induction l1 generalizing s c with
  | nil => rfl
  | cons a l1 ih =>
    simp only [List.cons_append, args_loop]
    cases hp : proc_arg s c a with
    | none => rfl
    | some sc => exact ih sc.1 sc.2

set_option maxHeartbeats 1000000 in
/-- A recognized flag other than `--unset-mode-input-s2t` and
`--unset-mode-all` never turns the persistent `input_s2t` flag off. -/
theorem proc_arg_keeps_input (s : SessionState) (c : CmdFlags) (a : String)
    (s1 : SessionState) (c1 : CmdFlags)
    (hp : proc_arg s c a = some (s1, c1))
    (ha : a ≠ "--unset-mode-input-s2t") (hb : a ≠ "--unset-mode-all")
    (hs : s.input_s2t = true) : s1.input_s2t = true := by
  unfold proc_arg at hp
  split_ifs at hp
  all_goals
    first
    | exact Option.noConfusion hp
    | (simp only [Option.some.injEq, Prod.mk.injEq] at hp
       obtain ⟨he, -⟩ := hp
       subst he
       first
       | rfl
       | exact hs)

/-- The flag loop keeps `input_s2t` set as long as the command contains
neither `--unset-mode-input-s2t` nor `--unset-mode-all`. -/
theorem args_loop_keeps_input (args : List String) :
    ∀ (s : SessionState) (c : CmdFlags), s.input_s2t = true →
    "--unset-mode-input-s2t" ∉ args → "--unset-mode-all" ∉ args →
    ((args_loop s c args).1).input_s2t = true := by
  induction args with
  | nil => intro s c hs _ _; exact hs
  | cons a rest ih =>
    intro s c hs h1 h2
    simp only [List.mem_cons, not_or] at h1 h2
    cases hp : proc_arg s c a with
    | none => simpa [args_loop, hp] using hs
    | some sc =>
      have hs1 : sc.1.input_s2t = true :=
        proc_arg_keeps_input s c a sc.1 sc.2 (by rw [hp]) (fun he => h1.1 he.symm)
          (fun he => h2.1 he.symm) hs
      simpa [args_loop, hp] using ih sc.1 sc.2 hs1 h1.2 h2.2

/-- When the flag loop succeeds, `args_runner` dispatches with the effective
flags computed from the final session state and the transient flags. -/
theorem args_runner_of_ok (conv : String → String) (s s2 : SessionState)
    (c : CmdFlags) (args words : List String)
    (hl : args_loop s initFlags args = (s2, Except.ok c)) :
    args_runner conv s args words =
      (s2, Except.ok
        ⟨if c.translation_mode then QueryMode.translation
          else if c.jyutping_mode then QueryMode.jyutping else QueryMode.dict,
         if s2.input_s2t || c.command_input_s2t then words.map conv else words,
         c.command_result_t2s || s2.result_t2s⟩) := by
  unfold args_runner
  rw [hl]

/-- When the flag loop fails, `args_runner` returns the error and the session
state the loop left behind. -/
theorem args_runner_of_error (conv : String → String) (s s2 : SessionState)
    (args words : List String) (i : String)
    (hl : args_loop s initFlags args = (s2, Except.error i)) :
    args_runner conv s args words = (s2, Except.error i) := by
  unfold args_runner
  rw [hl]

/-- Claim C7: running the command handler on the single token `"-x"` returns
the invalid-argument error naming `"-x"`, dispatches no query, and returns
the session state unchanged, for every session state and conversion
function. -/
theorem c7_invalid_argument_aborts_session_unchanged
    (conv : String → String) (s : SessionState) :
    run_command conv s ["-x"] = (s, Except.error "-x") := by
  rfl

/-- Claim C8: after a command containing `--set-mode-input-s2t`, the session
flag `input_s2t` is `true`, and any later command that does not unset it
(contains neither `--unset-mode-input-s2t` nor `--unset-mode-all`) and
succeeds dispatches with every search word converted by the
simplified-to-traditional conversion, even though `-i`/`--input-s2t` was not
supplied: conversion is triggered by `self.input_s2t || command_input_s2t`. -/
theorem c8_set_mode_input_s2t_persists
    (conv : String → String) (s : SessionState) (tokens : List String)
    (d : Dispatch)
    (h1 : "--unset-mode-input-s2t" ∉ tokens)
    (h2 : "--unset-mode-all" ∉ tokens)
    (h3 : (run_command conv ((run_command conv s ["--set-mode-input-s2t"]).1)
            tokens).2 = Except.ok d) :
    ((run_command conv s ["--set-mode-input-s2t"]).1).input_s2t = true ∧
    d.words = (tokens.filter (fun x => !startsWithDash x)).map conv := by
  refine ⟨rfl, ?_⟩
  have hrc : run_command conv ((run_command conv s ["--set-mode-input-s2t"]).1) tokens =
      args_runner conv ⟨true, s.result_t2s⟩
        (tokens.filter (fun x => startsWithDash x))
        (tokens.filter (fun x => !startsWithDash x)) := rfl
  rw [hrc] at h3
  cases hl : args_loop ⟨true, s.result_t2s⟩ initFlags
      (tokens.filter (fun x => startsWithDash x)) with
  | mk s2 rr =>
    cases rr with
    | error i =>
      rw [args_runner_of_error conv _ _ _ _ _ hl] at h3
      exact absurd h3 (by simp)
    | ok c =>
      rw [args_runner_of_ok conv _ _ _ _ _ hl] at h3
      have hs2 : s2.input_s2t = true := by
        have hmem1 : "--unset-mode-input-s2t" ∉
            tokens.filter (fun x => startsWithDash x) :=
          fun hm => h1 (List.mem_of_mem_filter hm)
        have hmem2 : "--unset-mode-all" ∉
            tokens.filter (fun x => startsWithDash x) :=
          fun hm => h2 (List.mem_of_mem_filter hm)
        have hkeep := args_loop_keeps_input
          (tokens.filter (fun x => startsWithDash x))
          ⟨true, s.result_t2s⟩ initFlags rfl hmem1 hmem2
        rw [hl] at hkeep
        exact hkeep
      rw [hs2] at h3
      simp only [Bool.true_or, if_true] at h3
      simp only [Except.ok.injEq] at h3
      rw [← h3]

/-- Claim C10 (witnessed): a `--set-mode-input-s2t` processed before the
invalid token `"-x"` has already mutated the session when the command aborts,
and the mutation is kept. -/
theorem c10_mutation_before_invalid_persists
    (conv : String → String) (s s2 : SessionState) (c2 : CmdFlags)
    (pre rest words : List String) (bad : String)
    (h1 : args_loop s initFlags pre = (s2, Except.ok c2))
    (h2 : proc_arg s2 c2 bad = none) :
    args_runner conv s (pre ++ bad :: rest) words = (s2, Except.error bad) := by
  have hl : args_loop s initFlags (pre ++ bad :: rest) = (s2, Except.error bad) := by
    rw [args_loop_append, h1]
    simp only [args_loop, h2]
  exact args_runner_of_error conv s s2 _ words bad hl

/-- Witness for claim C10: `--set-mode-input-s2t` followed by the invalid
token `-x` aborts with the error naming `-x`, yet returns the session with
`input_s2t` already switched on. -/
theorem c10_mutation_before_invalid_persists_witness :
    args_runner (fun x => x) ⟨false, false⟩ ["--set-mode-input-s2t", "-x"] [] =
      (⟨true, false⟩, Except.error "-x") :=
  c10_mutation_before_invalid_persists (fun x => x) ⟨false, false⟩ ⟨true, false⟩
    initFlags ["--set-mode-input-s2t"] [] [] "-x" rfl rfl

/-- Witness for claim C8: with the session fresh, run
`["--set-mode-input-s2t"]` and then `["hello"]`; the second command
dispatches the converted word even though `-i` was absent. -/
theorem c8_set_mode_input_s2t_persists_witness :
    ((run_command (fun x => "T" ++ x) ⟨false, false⟩
        ["--set-mode-input-s2t"]).1).input_s2t = true ∧
    (⟨QueryMode.dict, ["Thello"], false⟩ : Dispatch).words =
      ((["hello"] : List String).filter (fun x => !startsWithDash x)).map
        (fun x => "T" ++ x) :=
  c8_set_mode_input_s2t_persists (fun x => "T" ++ x) ⟨false, false⟩ ["hello"]
    ⟨QueryMode.dict, ["Thello"], false⟩ (by decide) (by decide) (by decide)

/-- Stripping `~` and backtick characters leaves the 404 marker itself
untouched (it contains neither character). -/
theorem marker404_filter_fixed :
    (marker404.filter (fun c => c != '~')).filter (fun c => c != '`') =
      marker404 := by
  decide

/-- An occurrence of the 404 marker in the raw response survives the
character stripping of `request_moedict`. -/
theorem marker404_in_stripMarks (response : List Char)
    (h : marker404 <:+: response) : marker404 <:+: stripMarks response := by
  obtain ⟨u, w, huw⟩ := h
  refine ⟨stripMarks u, stripMarks w, ?_⟩
  rw [← huw]
  unfold stripMarks
  simp only [List.filter_append, marker404_filter_fixed]

/-- Claim C6: whenever the raw response text contains the literal marker
`<title>404 Not Found</title>`, `request_moedict` fails with the not-found
error carrying the queried keyword, and `get_result` reports not-found for
*every* possible JSON parser — the parse and normalization steps are never
reached. -/
theorem c6_marker_yields_not_found_without_parsing
    (parse : List Char → Option (List (String × Value)))
    (keyword : String) (response : List Char)
    (h : marker404 <:+: response) :
    request_moedict keyword response = Except.error keyword ∧
    get_result parse keyword response = GetResultOutcome.notFound keyword := by
  have hm : marker404 <:+: stripMarks response := marker404_in_stripMarks response h
  have hreq : request_moedict keyword response = Except.error keyword := by
    unfold request_moedict
    rw [if_pos hm]
  refine ⟨hreq, ?_⟩
  unfold get_result
  rw [hreq]

/-- Witness for claim C6: a response that is exactly the 404 marker, keyword
`"zzzNoSuchWord"`, and a parser that would reject everything — the pipeline
still reports `notFound "zzzNoSuchWord"` without consulting the parser. -/
theorem c6_marker_yields_not_found_without_parsing_witness :
    request_moedict "zzzNoSuchWord" marker404 = Except.error "zzzNoSuchWord" ∧
    get_result (fun _ => none) "zzzNoSuchWord" marker404 =
      GetResultOutcome.notFound "zzzNoSuchWord" :=
  c6_marker_yields_not_found_without_parsing (fun _ => none) "zzzNoSuchWord"
    marker404 ⟨[], [], by simp⟩

/-- Claim C3 (amended): when key `type` of a definition item holds a
non-string value, `get_defination` fails with an error (the entry's
definitions become absent) — it does *not* fall back to `"notype"`; the
`"notype"` fallback applies only when the key is missing, as in the spec's
`[{f:"x"}]` example. -/
theorem c3_amended_nonstring_type_errors
    (fields : List (String × Value)) (v : Value) (rest : List Value)
    (h1 : objGet fields "type" = some v) (h2 : v.as_str = none) :
    get_defination (Value.obj [("d", Value.arr (Value.obj fields :: rest))]) =
      Except.error RunErr.err ∧
    get_defination (Value.obj [("d", Value.arr [Value.obj [("f", Value.str "x")]])]) =
      Except.ok [("notype", [["x"]])] := by
  refine ⟨?_, rfl⟩
  show defLoop [] 0 (Value.obj fields :: rest) = Except.error RunErr.err
  have hp : procDefItem [] 0 (Value.obj fields) = Except.error RunErr.err := by
    simp only [procDefItem, Value.as_object, exOpt, h1, h2, bind, Except.bind]
  simp only [defLoop, hp, bind, Except.bind]

/-- Witness for claim C3 (amended): a first item whose `type` is the number
42 makes `get_defination` fail, while the missing-`type` example still
produces the `"notype"` group. -/
theorem c3_amended_nonstring_type_errors_witness :
    get_defination (Value.obj [("d",
        Value.arr (Value.obj [("type", Value.num 42)] :: []))]) =
      Except.error RunErr.err ∧
    get_defination (Value.obj [("d", Value.arr [Value.obj [("f", Value.str "x")]])]) =
      Except.ok [("notype", [["x"]])] :=
  c3_amended_nonstring_type_errors [("type", Value.num 42)] (Value.num 42) []
    rfl rfl

/-- `itemsLoop` never drops or reorders entries: a successful run yields one
`MoedictItemResult` per sense. -/
theorem itemsLoop_length (xs : List Value) :
    ∀ items, itemsLoop xs = some items → items.length = xs.length := by
  induction xs with
  | nil =>
    intro items h
    simp only [itemsLoop, Option.some.injEq] at h
    rw [← h]
    rfl
  | cons v rest ih =>
    intro items h
    simp only [itemsLoop, Option.bind_eq_bind] at h
    cases hiv : itemOf v with
    | none => rw [hiv] at h; simp at h
    | some it =>
      rw [hiv] at h
      cases hr : itemsLoop rest with
      | none => rw [hr] at h; simp at h
      | some its =>
        rw [hr] at h
        simp only [Option.some_bind, Option.some.injEq] at h
        rw [← h]
        simp [ih its hr]

/-- `itemsLoop` over a concatenation is the concatenation of the two runs
(panics propagate from either part). -/
theorem itemsLoop_append (l1 l2 : List Value) :
    itemsLoop (l1 ++ l2) =
      (itemsLoop l1).bind fun a => (itemsLoop l2).bind fun b => some (a ++ b) := by
  induction l1 with
  | nil =>
    simp only [List.nil_append]
    cases h2 : itemsLoop l2 <;> simp [itemsLoop]
  | cons v l1 ih =>
    simp only [List.cons_append, itemsLoop, Option.bind_eq_bind, ih]
    cases hv : itemOf v with
    | none => simp
    | some it =>
      cases hl1 : itemsLoop l1 with
      | none => simp [ih, hl1]
      | some a =>
        cases hl2 : itemsLoop l2 with
        | none => simp [ih, hl1, hl2]
        | some b => rw [List.append_eq, ih, hl1, hl2]; simp

/-- A caught extraction (`Ok => Some / Err => None`) that did produce a
`Result` value agrees with the plain `Result → Option` view. -/
theorem catchErr_some {α : Type} (e : Except RunErr α) (o : Option α)
    (h : catchErr e = some o) : o = toOpt e := by
  cases e with
  | ok a => simp only [catchErr, toOpt, Option.some.injEq] at h ⊢; exact h.symm
  | error er =>
    cases er with
    | err => simp only [catchErr, toOpt, Option.some.injEq] at h ⊢; exact h.symm
    | panic => simp [catchErr] at h

/-- Claim C5: in a sense object whose key `p` holds a number, the entry's
pinyin is absent while bopomofo and definitions are exactly what their own
extractors produce (populated whenever well-formed), and the entry keeps its
position among its siblings: the normalized output has one entry per sense
and the malformed-`p` sense's entry is at its original index. -/
theorem c5_malformed_pinyin_is_isolated
    (fields : List (String × Value)) (n : Int) (r : MoedictItemResult)
    (pre post : List Value) (res : MoedictResult)
    (h1 : objGet fields "p" = some (Value.num n))
    (h2 : itemOf (Value.obj fields) = some r)
    (h3 : format_result [("h", Value.arr (pre ++ Value.obj fields :: post))] =
      some res) :
    r.pinyin = none ∧
    r.bopomofo = toOpt (get_bopomofo (Value.obj fields)) ∧
    r.defination = toOpt (get_defination (Value.obj fields)) ∧
    res.moedict_item_result.length = pre.length + 1 + post.length ∧
    res.moedict_item_result.get? pre.length = some r := by
  have hpy : get_pinyin (Value.obj fields) = Except.error RunErr.err := by
    simp only [get_pinyin, Value.as_object, exOpt, h1, Value.as_str, bind,
      Except.bind]
  have h2' := h2
  unfold itemOf at h2'
  simp only [Option.bind_eq_bind] at h2'
  obtain ⟨dOpt, hdo, h2a⟩ := Option.bind_eq_some.mp h2'
  obtain ⟨pOpt, hpo, h2b⟩ := Option.bind_eq_some.mp h2a
  obtain ⟨bOpt, hbo, h2c⟩ := Option.bind_eq_some.mp h2b
  have hr : r = ⟨pOpt, bOpt, dOpt⟩ := (Option.some.inj h2c).symm
  have hpn : pOpt = none := by
    rw [hpy] at hpo
    simpa [catchErr] using (catchErr_some _ _ hpo)
  have hfr : format_result [("h", Value.arr (pre ++ Value.obj fields :: post))] =
      (itemsLoop (pre ++ Value.obj fields :: post)).bind
        fun items => some ⟨items, none⟩ := rfl
  rw [hfr] at h3
  obtain ⟨items, hits, hres⟩ := Option.bind_eq_some.mp h3
  have hres' : res = ⟨items, none⟩ := (Option.some.inj hres).symm
  rw [itemsLoop_append] at hits
  obtain ⟨a, ha2, hits2⟩ := Option.bind_eq_some.mp hits
  have hcons : itemsLoop (Value.obj fields :: post) =
      (itemOf (Value.obj fields)).bind
        fun it => (itemsLoop post).bind fun its => some (it :: its) := by
    simp [itemsLoop]
  rw [hcons, h2] at hits2
  simp only [Option.some_bind] at hits2
  obtain ⟨b, hb2, hab⟩ := Option.bind_eq_some.mp hits2
  obtain ⟨its, hpost, hrb⟩ := Option.bind_eq_some.mp hb2
  have hb : b = r :: its := (Option.some.inj hrb).symm
  have hitems : items = a ++ r :: its := by
    rw [hb] at hab
    exact (Option.some.inj hab).symm
  have hal : a.length = pre.length := itemsLoop_length pre a ha2
  have hil : its.length = post.length := itemsLoop_length post its hpost
  refine ⟨?_, ?_, ?_, ?_, ?_⟩
  · rw [hr]; exact hpn
  · rw [hr]; exact catchErr_some _ _ hbo
  · rw [hr]; exact catchErr_some _ _ hdo
  · rw [hres', hitems]
    simp [hal, hil]
    omega
  · rw [hres', hitems]
    show (a ++ r :: its).get? pre.length = some r
    rw [← hal, List.get?_append_right (Nat.le_refl a.length)]
    simp

/-- Witness for claim C5: sense `{p: 5, b: "b1", d: []}` with one sibling —
pinyin absent, bopomofo `"b1"` and definitions (an empty map) populated, and
both entries present in order. -/
theorem c5_malformed_pinyin_is_isolated_witness :
    (⟨none, some "b1", some []⟩ : MoedictItemResult).pinyin = none ∧
    (⟨none, some "b1", some []⟩ : MoedictItemResult).bopomofo =
      toOpt (get_bopomofo (Value.obj
        [("p", Value.num 5), ("b", Value.str "b1"), ("d", Value.arr [])])) ∧
    (⟨none, some "b1", some []⟩ : MoedictItemResult).defination =
      toOpt (get_defination (Value.obj
        [("p", Value.num 5), ("b", Value.str "b1"), ("d", Value.arr [])])) ∧
    (⟨[⟨none, some "b1", some []⟩, ⟨none, none, none⟩], none⟩ :
        MoedictResult).moedict_item_result.length = 0 + 1 + 1 ∧
    (⟨[⟨none, some "b1", some []⟩, ⟨none, none, none⟩], none⟩ :
        MoedictResult).moedict_item_result.get? 0 =
      some ⟨none, some "b1", some []⟩ :=
  c5_malformed_pinyin_is_isolated
    [("p", Value.num 5), ("b", Value.str "b1"), ("d", Value.arr [])] 5
    ⟨none, some "b1", some []⟩ [] [Value.str "sib"]
    ⟨[⟨none, some "b1", some []⟩, ⟨none, none, none⟩], none⟩ rfl rfl rfl

end Meowdict
